import Mathlib

/-
Shallow embedding of the fortunate-json crate (src/fortunate_json.rs and
src/fortunate_json/parse.rs).  The Rust lexer works on a byte slice
(`&[u8]`) with a cursor; we model the remaining input as a `List Char`.
For ASCII input this is byte-for-byte identical.  For multi-byte UTF-8
content the two views also agree observably: every continuation byte
(>= 0x80) falls into the same default match arms as the corresponding
decoded character (it is not whitespace, not a digit, not an identifier
byte, and not one of the dispatch characters), so dispatch decisions and
captured slices coincide.

Rust panics (the various `.unwrap()` calls on user-controlled data) are
modelled as an explicit `RErr.panicked` outcome, distinct from the
`ParseError` channel.  The recursive-descent parser recurses without
bound in Rust (stack overflow is a documented risk); we model the call
stack by a fuel argument, with `RErr.outOfFuel` as the analogue of stack
exhaustion.  The top-level `parse` supplies fuel `input.length + 1`,
which exceeds the recursion depth actually reachable on that input.
-/

namespace FortunateJson

/-- Errors of the embedded program: `parseError` models Rust
`ParseError(String)`, `panicked` models a Rust panic (an `unwrap` on
`None`/`Err`), `outOfFuel` is the fuel-based model of stack exhaustion. -/
inductive RErr where
  | parseError (msg : String)
  | panicked
  | outOfFuel
deriving DecidableEq

/-- The payload of a Rust `Token::Number(f32)` / `Value::Number(f32)`.
The Rust code stores the `f32` obtained by parsing the captured digit
slice and negating if a leading minus sign was consumed.  We keep the
sign flag and the captured slice exactly; the final binary rounding of
`str::parse::<f32>` is not modelled (no claim depends on rounded float
values, and every concrete number used in the theorems below is exactly
representable). -/
structure NumLit where
  negative : Bool
  slice : List Char
deriving DecidableEq

/-- The `Value` enum of fortunate_json.rs.  `Object` is a
`HashMap<String, Value>`; we model it as an association list together
with the `hashmap_insert`/`hashmap_get` operations below, which
implement the `HashMap::insert` (replace value of an existing key) and
`HashMap::get` semantics. -/
inductive Value where
  | null
  | boolean (b : Bool)
  | number (n : NumLit)
  | string (s : String)
  | array (elems : List Value)
  | object (entries : List (String × Value))

/-- The lexer-internal `Token` enum of parse.rs.  `Identifier` carries
the borrowed byte slice, modelled as the list of characters. -/
inductive Token where
  | openBracket
  | closeBracket
  | openBrace
  | closeBrace
  | colon
  | comma
  | identifier (bytes : List Char)
  | string (s : String)
  | number (n : NumLit)

/-- `HashMap::insert`: replace the value of an existing key, otherwise
add a new entry. -/
def hashmap_insert (m : List (String × Value)) (k : String) (v : Value) :
    List (String × Value) :=
  match m with
  | [] => [(k, v)]
  | (k', v') :: rest =>
    if k' = k then (k, v) :: rest else (k', v') :: hashmap_insert rest k v

/-- `HashMap::get`. -/
def hashmap_get (m : List (String × Value)) (k : String) : Option Value :=
  match m with
  | [] => none
  | (k', v') :: rest => if k' = k then some v' else hashmap_get rest k

/-- `Lexer::take_while`: returns the captured slice and the remaining
input (the Rust version moves `self.pos` and returns
`&self.s[start_pos..self.pos]`). -/
def take_while (p : Char → Bool) (l : List Char) : List Char × List Char :=
  match l with
  | [] => ([], [])
  | c :: rest =>
    if p c then
      let (t, r) := take_while p rest
      (c :: t, r)
    else ([], c :: rest)

/-- The whitespace predicate used by `Lexer::skip_whitespace`. -/
def is_ws (c : Char) : Bool :=
  c = ' ' || c = '\t' || c = '\r' || c = '\n'

/-- `Lexer::skip_whitespace`. -/
def skip_whitespace (l : List Char) : List Char :=
  match l with
  | [] => []
  | c :: rest => if is_ws c then skip_whitespace rest else c :: rest

/-- `Lexer::is_identifier_start`. -/
def is_identifier_start (b : Char) : Bool :=
  (decide ('a' ≤ b) && decide (b ≤ 'z')) ||
  (decide ('A' ≤ b) && decide (b ≤ 'Z')) || b = '_'

/-- `Lexer::is_digit`. -/
def is_digit (b : Char) : Bool :=
  decide ('0' ≤ b) && decide (b ≤ '9')

/-- `Lexer::is_identifier_char`. -/
def is_identifier_char (b : Char) : Bool :=
  is_identifier_start b || is_digit b

/-- Acceptance predicate of Rust `str::parse::<f32>` restricted to the
slices `lex_number` can capture, which match
`digits* ('.' digits*)? ([eE] [+-]? digits*)?`.  On that language Rust
accepts exactly the strings with at least one mantissa digit and, when
an exponent marker is present, at least one exponent digit.  (The full
Rust float grammar additionally accepts signs and inf/nan spellings,
which cannot occur in a captured slice.) -/
def exponent_ok (s : List Char) : Bool :=
  let s' :=
    match s with
    | c :: t => if c = '+' || c = '-' then t else s
    | [] => s
  let (d, r) := take_while is_digit s'
  !d.isEmpty && r.isEmpty

def rust_parses_f32 (s : List Char) : Bool :=
  let (d1, r1) := take_while is_digit s
  match r1 with
  | [] => !d1.isEmpty
  | '.' :: t =>
    let (d2, r2) := take_while is_digit t
    match r2 with
    | [] => !d1.isEmpty || !d2.isEmpty
    | e :: t2 =>
      if e = 'e' || e = 'E' then (!d1.isEmpty || !d2.isEmpty) && exponent_ok t2
      else false
  | e :: t2 =>
    if e = 'e' || e = 'E' then !d1.isEmpty && exponent_ok t2
    else false

/-- `Lexer::lex_number`.  The input list starts at the `-` or first
digit (the token dispatcher does not advance before calling it).  The
final `from_utf8(..).unwrap()` cannot fail (the slice is ASCII by
construction); the `parse::<f32>().unwrap()` panics whenever the
captured slice is not a parsable float, which we model via
`rust_parses_f32`. -/
def lex_number (l : List Char) : Except RErr (NumLit × List Char) :=
  let (negative, l1) :=
    match l with
    | '-' :: rest => (true, rest)
    | _ => (false, l)
  match l1 with
  | [] => .error (.parseError "Unexpected EOF while parsing number")
  | _ :: _ =>
    let (d1, l2) := take_while is_digit l1
    let (dotPart, l3) :=
      match l2 with
      | '.' :: r =>
        let (d2, r2) := take_while is_digit r
        ('.' :: d2, r2)
      | _ => ([], l2)
    let (expPart, l4) :=
      match l3 with
      | c :: r =>
        if c = 'e' || c = 'E' then
          match r with
          | s :: r2 =>
            if s = '-' || s = '+' then
              let (d3, r3) := take_while is_digit r2
              (c :: s :: d3, r3)
            else
              let (d3, r3) := take_while is_digit r
              (c :: d3, r3)
          | [] => ([c], [])
        else ([], l3)
      | [] => ([], [])
    let slice := d1 ++ dotPart ++ expPart
    if rust_parses_f32 slice then .ok (⟨negative, slice⟩, l4)
    else .error .panicked

/-- The `DIGITS` constant of `Lexer::parse_hex_digit`, including the
duplicated `0` present in the source ("01234567890ABCDEF"): the
letters A..F sit at indices 11..16, not 10..15. -/
def DIGITS : List Char :=
  ['0', '1', '2', '3', '4', '5', '6', '7', '8', '9', '0',
   'A', 'B', 'C', 'D', 'E', 'F']

/-- `str::find` on `DIGITS`: index of the first occurrence.  All table
entries are ASCII, so the Rust byte offset equals the character index. -/
def str_find (l : List Char) (d : Char) : Option Nat :=
  match l with
  | [] => none
  | c :: rest =>
    if c = d then some 0
    else
      match str_find rest d with
      | some i => some (i + 1)
      | none => none

/-- `Lexer::parse_hex_digit`.  `Char.toUpper` matches Rust
`to_ascii_uppercase` (both only map a..z to A..Z). -/
def parse_hex_digit (d : Char) : Except RErr Nat :=
  match str_find DIGITS d.toUpper with
  | some i => .ok i
  | none =>
    .error (.parseError ("Bad hex digit '" ++ String.mk [d] ++ "' in unicode escape"))

/-- `Lexer::parse_hex`: assembles the four digit values as
`a1 << 24 | a2 << 16 | a3 << 8 | a4` (the shift amounts of the source,
not nibble shifts).  Each addend is below 2^32, so the Rust
`usize -> u32` cast is the identity here and is not modelled. -/
def parse_hex (d1 d2 d3 d4 : Char) : Except RErr Nat :=
  match parse_hex_digit d1 with
  | .error e => .error e
  | .ok a1 =>
    match parse_hex_digit d2 with
    | .error e => .error e
    | .ok a2 =>
      match parse_hex_digit d3 with
      | .error e => .error e
      | .ok a3 =>
        match parse_hex_digit d4 with
        | .error e => .error e
        | .ok a4 => .ok ((a1 <<< 24) ||| (a2 <<< 16) ||| (a3 <<< 8) ||| a4)

/-- Prepend a character to the result of a recursive call (`res.push`
in the accumulating Rust loop, re-expressed as structural recursion). -/
def push_char (c : Char) : Except RErr (List Char) → Except RErr (List Char)
  | .ok cs => .ok (c :: cs)
  | .error e => .error e

/-- `Lexer::parse_string` (the escape-resolution pass over the captured
extent).  `chars.next().unwrap()` after a backslash panics when the
extent ends in a lone backslash; `char::from_u32(..).unwrap()` panics
when the assembled number is not a Unicode scalar value.  The `gch`
closure of the `\u` arm turns a missing hex digit into a `ParseError`. -/
def parse_string (s : List Char) : Except RErr (List Char) :=
  match s with
  | [] => .ok []
  | c :: rest =>
    if c = '\\' then
      match rest with
      | [] => .error .panicked
      | n :: rest2 =>
        if n = '"' then push_char '"' (parse_string rest2)
        else if n = '\\' then push_char '\\' (parse_string rest2)
        else if n = '/' then push_char '/' (parse_string rest2)
        else if n = 'b' then push_char (Char.ofNat 8) (parse_string rest2)
        else if n = 'f' then push_char (Char.ofNat 12) (parse_string rest2)
        else if n = 'n' then push_char '\n' (parse_string rest2)
        else if n = 'r' then push_char '\r' (parse_string rest2)
        else if n = 't' then push_char '\t' (parse_string rest2)
        else if n = 'u' then
          match rest2 with
          | d1 :: d2 :: d3 :: d4 :: rest6 =>
            match parse_hex d1 d2 d3 d4 with
            | .error e => .error e
            | .ok code =>
              if code < 0xd800 ∨ (0xdfff < code ∧ code < 0x110000) then
                push_char (Char.ofNat code) (parse_string rest6)
              else .error .panicked
          | _ =>
            .error (.parseError
              "Unexpected EOF when parsing unicode escape in string literal")
        else push_char n (parse_string rest2)
    else push_char c (parse_string rest)

/-- The extent-scanning loop inside the `'"'` arm of `Lexer::token`:
finds the closing quote, returning the captured slice (between the
quotes, escapes unresolved) and the input after the closing quote.
The `'\\'` arm advances only past the backslash itself before the next
loop iteration re-dispatches on the following character — this is the
source behaviour, preserved exactly. -/
def string_extent (l : List Char) : Except RErr (List Char × List Char) :=
  match l with
  | [] => .error (.parseError "Unexpected end of file while parsing string literal")
  | c :: rest =>
    if c = '\n' then
      .error (.parseError "Unexpected newline while parsing string literal")
    else if c = '\\' then
      match rest with
      | [] =>
        .error (.parseError
          "Unexpected end of file while parsing string literal escape sequence")
      | _ :: _ =>
        match string_extent rest with
        | .ok (ext, r) => .ok (c :: ext, r)
        | .error e => .error e
    else if c = '"' then .ok ([], rest)
    else
      match string_extent rest with
      | .ok (ext, r) => .ok (c :: ext, r)
      | .error e => .error e

/-- The dispatch body of `Lexer::token`, after the leading whitespace
skip and end-of-file check; match arms in source order. -/
def token_body (l : List Char) : Except RErr (Token × List Char) :=
  match l with
  | [] => .error (.parseError "Unexpected end of file")
  | b :: rest =>
    if b = '[' then .ok (.openBracket, rest)
    else if b = ']' then .ok (.closeBracket, rest)
    else if b = ',' then .ok (.comma, rest)
    else if b = ':' then .ok (.colon, rest)
    else if b = '{' then .ok (.openBrace, rest)
    else if b = '}' then .ok (.closeBrace, rest)
    else if b = '-' then
      match lex_number (b :: rest) with
      | .ok (n, r) => .ok (.number n, r)
      | .error e => .error e
    else if is_digit b then
      match lex_number (b :: rest) with
      | .ok (n, r) => .ok (.number n, r)
      | .error e => .error e
    else if b = '"' then
      match string_extent rest with
      | .ok (ext, r) =>
        match parse_string ext with
        | .ok cs => .ok (.string (String.mk cs), r)
        | .error e => .error e
      | .error e => .error e
    else if is_identifier_start b then
      let (ident, r) := take_while is_identifier_char (b :: rest)
      .ok (.identifier ident, r)
    else
      .error (.parseError ("Unexpected character '" ++ String.mk [b] ++ "'"))

/-- `Lexer::token`: skip leading whitespace, dispatch, then skip
trailing whitespace after a successfully produced token. -/
def token (l : List Char) : Except RErr (Token × List Char) :=
  match token_body (skip_whitespace l) with
  | .ok (t, r) => .ok (t, skip_whitespace r)
  | .error e => .error e

/-- The `NULL_TOKEN` constant. -/
def NULL_TOKEN : List Char := ['n', 'u', 'l', 'l']

/-- The `TRUE_TOKEN` constant. -/
def TRUE_TOKEN : List Char := ['t', 'r', 'u', 'e']

/-- The `FALSE_TOKEN` constant. -/
def FALSE_TOKEN : List Char := ['f', 'a', 'l', 's', 'e']

/-- Which piece of `parse_` is running: the value dispatch itself, the
array-element loop of the `OpenBracket` arm (with the `arr` vector
accumulated so far), or the key/value loop of the `OpenBrace` arm (with
the `obj` map accumulated so far).  The two loops are written inline in
the Rust function; giving them modes lets the whole recursive descent be
one structurally fuel-recursive Lean function. -/
inductive PMode where
  | val
  | arrElems (acc : List Value)
  | objEntries (acc : List (String × Value))

/-- `parse_` from parse.rs (the `dbg!` call has no observable effect and
is omitted).  The fuel argument models the Rust call stack; every
recursive call in the source maps to a call at one unit less fuel. -/
def parse_ : Nat → PMode → List Char → Except RErr (Value × List Char)
  | 0, _, _ => .error .outOfFuel
  | fuel + 1, .val, l =>
    match token l with
    | .error e => .error e
    | .ok (t, l1) =>
      match t with
      | .identifier i =>
        if i = NULL_TOKEN then .ok (.null, l1)
        else if i = TRUE_TOKEN then .ok (.boolean true, l1)
        else if i = FALSE_TOKEN then .ok (.boolean false, l1)
        else
          .error (.parseError ("Unknown token 'Identifier(" ++ String.mk i ++ ")'"))
      | .string s => .ok (.string s, l1)
      | .number n => .ok (.number n, l1)
      | .openBracket => parse_ fuel (.arrElems []) l1
      | .openBrace => parse_ fuel (.objEntries []) l1
      | .closeBracket => .error (.parseError "Unknown token 'CloseBracket'")
      | .closeBrace => .error (.parseError "Unknown token 'CloseBrace'")
      | .colon => .error (.parseError "Unknown token 'Colon'")
      | .comma => .error (.parseError "Unknown token 'Comma'")
  | fuel + 1, .arrElems acc, l =>
    match parse_ fuel .val l with
    | .error e => .error e
    | .ok (val, l1) =>
      let acc := acc ++ [val]
      match token l1 with
      | .error e => .error e
      | .ok (next, l2) =>
        match next with
        | .closeBracket => .ok (.array acc, l2)
        | .comma => parse_ fuel (.arrElems acc) l2
        | _ => .error (.parseError "Expected ',' or ']' but got another token")
  | fuel + 1, .objEntries acc, l =>
    match parse_ fuel .val l with
    | .error e => .error e
    | .ok (kv, l1) =>
      match kv with
      | .string k =>
        match token l1 with
        | .error e => .error e
        | .ok (c, l2) =>
          match c with
          | .colon =>
            match parse_ fuel .val l2 with
            | .error e => .error e
            | .ok (val, l3) =>
              let acc := hashmap_insert acc k val
              match token l3 with
              | .error e => .error e
              | .ok (t, l4) =>
                match t with
                | .closeBrace => .ok (.object acc, l4)
                | .comma => parse_ fuel (.objEntries acc) l4
                | _ =>
                  .error (.parseError "Expected comma or brace but got another token")
          | _ => .error (.parseError "Expected colon but got another token")
      | _ => .error (.parseError "Object keys must be strings")

/-- Top-level `parse`: run `parse_`, skip trailing whitespace, and
reject any remaining input. -/
def parse (s : List Char) : Except RErr Value :=
  match parse_ (s.length + 1) .val s with
  | .error e => .error e
  | .ok (v, rest) =>
    match skip_whitespace rest with
    | [] => .ok v
    | r => .error (.parseError ("Extra goop at the end of the file: " ++ String.mk r))

/-- The sequence of key/value pairs the object loop of `parse_` reads
from the input, in textual order, collected as a list instead of folded
into the map.  This follows the `OpenBrace` loop step for step (same
key parses, value parses, separators, errors and fuel use), so for a
given input it deterministically names the occurrence order of the
pairs in the text; `objEntries_eq_obj_pairs` below proves the object
loop's result is exactly the `hashmap_insert` fold over this
sequence. -/
def obj_pairs : Nat → List Char → Except RErr (List (String × Value) × List Char)
  | 0, _ => .error .outOfFuel
  | fuel + 1, l =>
    match parse_ fuel .val l with
    | .error e => .error e
    | .ok (kv, l1) =>
      match kv with
      | .string k =>
        match token l1 with
        | .error e => .error e
        | .ok (c, l2) =>
          match c with
          | .colon =>
            match parse_ fuel .val l2 with
            | .error e => .error e
            | .ok (val, l3) =>
              match token l3 with
              | .error e => .error e
              | .ok (t, l4) =>
                match t with
                | .closeBrace => .ok ([(k, val)], l4)
                | .comma =>
                  match obj_pairs fuel l4 with
                  | .error e => .error e
                  | .ok (ps, r) => .ok ((k, val) :: ps, r)
                | _ =>
                  .error (.parseError "Expected comma or brace but got another token")
          | _ => .error (.parseError "Expected colon but got another token")
      | _ => .error (.parseError "Object keys must be strings")

/-- The `DecodeError` unit struct of fortunate_json.rs. -/
inductive DecodeError where
  | mk
deriving DecidableEq

/-- The shape of a `FromJSON::from_json(v: &Value, res: &mut Self)`
implementation: the returned pair is the `Result<(), DecodeError>` and
the final contents of the `&mut` out-parameter (which the caller
observes even when the result is `Err`). -/
def FromJson (τ : Type) : Type :=
  Value → τ → Except DecodeError Unit × τ

/-- `Value::as_string`. -/
def as_string (v : Value) : Except DecodeError String :=
  match v with
  | .string s => .ok s
  | _ => .error .mk

/-- `Value::as_float`. -/
def as_float (v : Value) : Except DecodeError NumLit :=
  match v with
  | .number n => .ok n
  | _ => .error .mk

/-- `Value::as_array`. -/
def as_array (v : Value) : Except DecodeError (List Value) :=
  match v with
  | .array a => .ok a
  | _ => .error .mk

/-- `Value::as_object`. -/
def as_object (v : Value) : Except DecodeError (List (String × Value)) :=
  match v with
  | .object hm => .ok hm
  | _ => .error .mk

/-- `impl FromJSON for String`. -/
def string_from_json : FromJson String := fun v res =>
  match as_string v with
  | .ok s => (.ok (), s)
  | .error e => (.error e, res)

/-- `impl FromJSON for f32` (numbers modelled as `NumLit`). -/
def f32_from_json : FromJson NumLit := fun v res =>
  match as_float v with
  | .ok n => (.ok (), n)
  | .error e => (.error e, res)

/-- The `for elem in a` loop of `impl FromJSON for Vec<T>`: `acc` is the
current contents of the out-vector; each element is decoded into a fresh
`Default::default()` value `dflt` and pushed on success; an element
failure returns immediately, leaving the vector at `acc`. -/
def vec_from_json_loop {τ : Type} (dflt : τ) (fj : FromJson τ) :
    List Value → List τ → Except DecodeError Unit × List τ
  | [], acc => (.ok (), acc)
  | e :: rest, acc =>
    match fj e dflt with
    | (.ok _, x) => vec_from_json_loop dflt fj rest (acc ++ [x])
    | (.error er, _) => (.error er, acc)

/-- `impl FromJSON for Vec<T>`: requires an array, clears the
out-vector, then runs the element loop. -/
def vec_from_json {τ : Type} (dflt : τ) (fj : FromJson τ) : FromJson (List τ) :=
  fun v res =>
    match as_array v with
    | .error e => (.error e, res)
    | .ok a => vec_from_json_loop dflt fj a []

/-- `extract_field`: missing key is a `DecodeError`; otherwise decode
the found value into the target. -/
def extract_field {τ : Type} (fj : FromJson τ) (o : List (String × Value))
    (key : String) (res : τ) : Except DecodeError Unit × τ :=
  match hashmap_get o key with
  | none => (.error .mk, res)
  | some v => fj v res

/-- `extract_optional_field`: missing key leaves the target untouched
and succeeds; otherwise decode the found value into the target. -/
def extract_optional_field {τ : Type} (fj : FromJson τ)
    (o : List (String × Value)) (key : String) (res : τ) :
    Except DecodeError Unit × τ :=
  match hashmap_get o key with
  | none => (.ok (), res)
  | some v => fj v res

/-- Modelled from the spec: the unified `JSONError` type.  tests.rs
imports `decode` and `JSONError` from the crate, but their definitions
are not among the provided source files; spec sections 3 and 7 describe
`JSONError` as a tagged variant unifying `ParseError` and
`DecodeError`. -/
inductive JSONError where
  | parseError (msg : String)
  | decodeError
deriving DecidableEq

/-- Outcome of the modelled `decode`: a typed value, a `JSONError`, or
one of the non-returning outcomes inherited from the parser model. -/
inductive JResult (τ : Type) where
  | ok (v : τ)
  | jerr (e : JSONError)
  | panicked
  | outOfFuel

/-- Modelled from the spec: the top-level
`decode(text) -> Result<T, JSONError>` entry point, which tests.rs calls
but whose definition is not among the provided source files.  Per spec
section 4.3 it composes `parse` with the decode-into capability,
converting a `ParseError` or `DecodeError` into the unified
`JSONError`. -/
def decode {τ : Type} (fj : FromJson τ) (dflt : τ) (text : List Char) : JResult τ :=
  match parse text with
  | .error (.parseError m) => .jerr (.parseError m)
  | .error .panicked => .panicked
  | .error .outOfFuel => .outOfFuel
  | .ok v =>
    match fj v dflt with
    | (.ok _, r) => .ok r
    | (.error _, _) => .jerr .decodeError

/-- Folding `hashmap_insert` over a list of key/value pairs, in order:
the map built by the object-parsing loop when it reads exactly the
pairs `ps` after starting from `m`. -/
def insertAll (m : List (String × Value)) (ps : List (String × Value)) :
    List (String × Value) :=
  ps.foldl (fun acc p => hashmap_insert acc p.1 p.2) m

/-- The value attached to the last occurrence of `k` in the pair
sequence `ps` (in sequence order), if any. -/
def lastAssoc (ps : List (String × Value)) (k : String) : Option Value :=
  match ps with
  | [] => none
  | p :: rest =>
    match lastAssoc rest k with
    | some v => some v
    | none => if p.1 = k then some p.2 else none

/-- Element-wise decoding of an array, described without the
out-vector accumulator: returns the list of successfully decoded
elements up to the first failure, and whether every element
succeeded. -/
def decodeElems {τ : Type} (fj : FromJson τ) (dflt : τ) :
    List Value → List τ × Bool
  | [] => ([], true)
  | v :: vs =>
    match fj v dflt with
    | (.ok _, x) =>
      let p := decodeElems fj dflt vs
      (x :: p.1, p.2)
    | (.error _, _) => ([], false)

/- Helper lemmas, shared between the claim theorems. -/

theorem skip_whitespace_eq_nil (l : List Char) :
    skip_whitespace l = [] ↔ ∀ c ∈ l, is_ws c = true := by
  induction l with
  | nil => simp [skip_whitespace]
  | cons c rest ih =>
    by_cases h : is_ws c = true
    · simp [skip_whitespace, h, ih]
    · simp [skip_whitespace, h]

theorem hashmap_get_insert (m : List (String × Value)) (a : String) (b : Value)
    (k : String) :
    hashmap_get (hashmap_insert m a b) k =
      if a = k then some b else hashmap_get m k := by
  induction m with
  | nil => simp [hashmap_insert, hashmap_get]
  | cons p rest ih =>
    obtain ⟨k', v'⟩ := p
    by_cases h1 : k' = a
    · subst h1
      by_cases h2 : k' = k <;> simp [hashmap_insert, hashmap_get, h2]
    · by_cases h2 : k' = k
      · subst h2
        have : ¬a = k' := fun h => h1 h.symm
        simp [hashmap_insert, hashmap_get, h1, this]
      · simp [hashmap_insert, hashmap_get, h1, h2, ih]

theorem mem_keys_insert (m : List (String × Value)) (a : String) (b : Value)
    (x : String) :
    x ∈ (hashmap_insert m a b).map Prod.fst ↔ x ∈ m.map Prod.fst ∨ x = a := by
  induction m with
  | nil => simp [hashmap_insert]
  | cons p rest ih =>
    obtain ⟨k', v'⟩ := p
    by_cases h1 : k' = a
    · subst h1
      simp [hashmap_insert]
      tauto
    · simp [hashmap_insert, h1, ih]
      tauto

theorem nodup_keys_insert (m : List (String × Value)) (a : String) (b : Value)
    (h : (m.map Prod.fst).Nodup) :
    ((hashmap_insert m a b).map Prod.fst).Nodup := by
  induction m with
  | nil => simp [hashmap_insert]
  | cons p rest ih =>
    obtain ⟨k', v'⟩ := p
    simp only [List.map_cons, List.nodup_cons] at h
    by_cases h1 : k' = a
    · subst h1
      simp [hashmap_insert, h.1, h.2]
    · simp only [hashmap_insert, h1, if_false, List.map_cons, List.nodup_cons]
      refine ⟨?_, ih h.2⟩
      rw [mem_keys_insert]
      rintro (hx | hx)
      · exact h.1 hx
      · exact h1 hx

theorem get_insertAll (ps : List (String × Value)) (m : List (String × Value))
    (k : String) :
    hashmap_get (insertAll m ps) k =
      match lastAssoc ps k with
      | some v => some v
      | none => hashmap_get m k := by
  induction ps generalizing m with
  | nil => simp [insertAll, lastAssoc]
  | cons p ps ih =>
    obtain ⟨a, b⟩ := p
    have step : insertAll m ((a, b) :: ps) = insertAll (hashmap_insert m a b) ps := rfl
    rw [step, ih]
    cases hl : lastAssoc ps k with
    | some v => simp [lastAssoc, hl]
    | none =>
      by_cases hak : a = k <;>
        simp [lastAssoc, hl, hashmap_get_insert, hak]

theorem nodup_insertAll (ps : List (String × Value)) (m : List (String × Value))
    (h : (m.map Prod.fst).Nodup) :
    ((insertAll m ps).map Prod.fst).Nodup := by
  induction ps generalizing m with
  | nil => exact h
  | cons p ps ih =>
    obtain ⟨a, b⟩ := p
    exact ih (hashmap_insert m a b) (nodup_keys_insert m a b h)

theorem vec_loop_spec {τ : Type} (dflt : τ) (fj : FromJson τ) (xs : List Value)
    (acc : List τ) :
    vec_from_json_loop dflt fj xs acc =
      ((if (decodeElems fj dflt xs).2 then Except.ok () else Except.error .mk),
        acc ++ (decodeElems fj dflt xs).1) := by
  induction xs generalizing acc with
  | nil => simp [vec_from_json_loop, decodeElems]
  | cons v vs ih =>
    rcases hf : fj v dflt with ⟨er | u, x⟩
    · cases er
      simp [vec_from_json_loop, decodeElems, hf]
    · simp [vec_from_json_loop, decodeElems, hf, ih]

theorem arr_shape (fuel : Nat) :
    ∀ (acc : List Value) (l : List Char) (v : Value) (r : List Char),
      parse_ fuel (.arrElems acc) l = .ok (v, r) → ∃ xs, v = Value.array xs := by
  induction fuel with
  | zero => intro acc l v r h; simp [parse_] at h
  | succ fuel ih =>
    intro acc l v r h
    rw [parse_] at h
    cases h1 : parse_ fuel .val l with
    | error e => rw [h1] at h; simp at h
    | ok p =>
      rw [h1] at h
      obtain ⟨val, l1⟩ := p
      simp only at h
      cases h2 : token l1 with
      | error e => rw [h2] at h; simp at h
      | ok q =>
        rw [h2] at h
        obtain ⟨next, l2⟩ := q
        cases next with
        | closeBracket =>
          simp only [Except.ok.injEq, Prod.mk.injEq] at h
          exact ⟨acc ++ [val], h.1.symm⟩
        | comma => exact ih _ _ _ _ h
        | openBracket => simp at h
        | closeBrace => simp at h
        | openBrace => simp at h
        | colon => simp at h
        | identifier i => simp at h
        | string s => simp at h
        | number n => simp at h

theorem objEntries_eq_obj_pairs (fuel : Nat) :
    ∀ (acc : List (String × Value)) (l : List Char),
      parse_ fuel (.objEntries acc) l =
        match obj_pairs fuel l with
        | .ok (ps, r) => .ok (.object (insertAll acc ps), r)
        | .error e => .error e := by
  induction fuel with
  | zero => intro acc l; rfl
  | succ fuel ih =>
    intro acc l
    rw [parse_, obj_pairs]
    rcases h1 : parse_ fuel .val l with e | ⟨kv, l1⟩
    · rfl
    cases kv with
    | string k =>
      rcases h2 : token l1 with e | ⟨c, l2⟩
      · simp [h2]
      cases c with
      | colon =>
        rcases h3 : parse_ fuel .val l2 with e | ⟨val, l3⟩
        · simp [h2, h3]
        rcases h4 : token l3 with e | ⟨t, l4⟩
        · simp [h2, h3, h4]
        cases t with
        | closeBrace => simp [h2, h3, h4, insertAll]
        | comma =>
          rcases h5 : obj_pairs fuel l4 with e | ⟨ps, r⟩
          · simp [h2, h3, h4, h5, ih]
          · simp [h2, h3, h4, h5, ih, insertAll]
        | openBracket => simp [h2, h3, h4]
        | closeBracket => simp [h2, h3, h4]
        | openBrace => simp [h2, h3, h4]
        | colon => simp [h2, h3, h4]
        | identifier i => simp [h2, h3, h4]
        | string s => simp [h2, h3, h4]
        | number n => simp [h2, h3, h4]
      | openBracket => simp [h2]
      | closeBracket => simp [h2]
      | openBrace => simp [h2]
      | closeBrace => simp [h2]
      | comma => simp [h2]
      | identifier i => simp [h2]
      | string s => simp [h2]
      | number n => simp [h2]
    | null => rfl
    | boolean b => rfl
    | number n => rfl
    | array xs => rfl
    | object entries => rfl

theorem val_object_pairs (fuel : Nat) (l : List Char) (m : List (String × Value))
    (r : List Char) (h : parse_ (fuel + 1) .val l = .ok (.object m, r)) :
    ∃ l1 ps, token l = .ok (.openBrace, l1) ∧
      obj_pairs fuel l1 = .ok (ps, r) ∧ m = insertAll [] ps := by
  rw [parse_] at h
  cases h1 : token l with
  | error e => rw [h1] at h; simp at h
  | ok p =>
    rw [h1] at h
    obtain ⟨t, l1⟩ := p
    cases t with
    | identifier i =>
      simp only at h
      split at h
      · simp at h
      · split at h
        · simp at h
        · split at h
          · simp at h
          · simp at h
    | string s => simp at h
    | number n => simp at h
    | openBracket =>
      obtain ⟨xs, hx⟩ := arr_shape fuel [] l1 (.object m) r h
      simp at hx
    | openBrace =>
      have h' : parse_ fuel (.objEntries []) l1 = .ok (.object m, r) := h
      rw [objEntries_eq_obj_pairs] at h'
      rcases hp : obj_pairs fuel l1 with e | ⟨ps, r'⟩
      · rw [hp] at h'
        simp at h'
      · rw [hp] at h'
        simp only [Except.ok.injEq, Prod.mk.injEq, Value.object.injEq] at h'
        exact ⟨l1, ps, rfl, by rw [hp, h'.2], h'.1.symm⟩
    | closeBracket => simp at h
    | closeBrace => simp at h
    | colon => simp at h
    | comma => simp at h

/- Claim theorems. -/

/-- C1: the claim states that every backslash escape, in particular an
escaped quote, is resolved to its literal character and that parsing
the four-character input consisting of quote, backslash, quote, quote
returns Ok(Value::String) holding one quote character.  On the code,
the extent scan of Lexer::token advances only past the backslash, so
the escaped quote terminates the literal; parse_string then hits
chars.next().unwrap() on a lone trailing backslash and the program
panics instead of returning Ok. -/
theorem c1_escaped_quote_panics :
    parse ("\"\\\"\"".data) = .error .panicked ∧
    parse ("\"a\\\"b\"".data) = .error .panicked :=
  ⟨rfl, rfl⟩

/-- C2: the claim states that a \uXXXX escape assembles the four hex
digits as a base-16 numeral, so "\u0041" decodes to U+0041 'A'.  On the
code, parse_hex shifts by 24/16/8 bits instead of 12/8/4, so the digits
0,0,4,1 assemble to 0x401 = 1025 and the parsed string is "Ё" (U+0401);
escapes whose miscomputed value exceeds 0x10FFFF make
char::from_u32(..).unwrap() panic, as "\u1234" shows. -/
theorem c2_unicode_escape_miscomputed :
    parse_hex '0' '0' '4' '1' = .ok 1025 ∧
    parse ("\"\\u0041\"".data) = .ok (.string "Ё") ∧
    parse ("\"\\u1234\"".data) = .error .panicked :=
  ⟨rfl, rfl, rfl⟩

/-- C3: the claim states that lex_number either returns a float or a
ParseError and never panics, citing "-x" and "1e".  On the code, when
the captured slice contains no parsable number the final
parse::<f32>().unwrap() panics, both for "-x" (empty slice) and for
"1e" (exponent marker with no digits). -/
theorem c3_lex_number_panics :
    lex_number ("-x".data) = .error .panicked ∧
    lex_number ("1e".data) = .error .panicked ∧
    parse ("-x".data) = .error .panicked :=
  ⟨rfl, rfl, rfl⟩

/-- C4 counterexample: the claim states parse("[]") returns an empty
Ok(Value::Array); on the code the array branch unconditionally parses a
first element, which sees the CloseBracket token and fails. -/
theorem c4_empty_array_rejected :
    parse ("[]".data) = .error (.parseError "Unknown token 'CloseBracket'") :=
  rfl

/-- C4 (amended): the parser does not special-case empty containers;
parse("[]") and parse("\x7b\x7d") each return a ParseError because the first
element/key parse rejects the closing token as an unknown token. -/
theorem c4_empty_containers_error :
    parse ("[]".data) = .error (.parseError "Unknown token 'CloseBracket'") ∧
    parse ("\x7b\x7d".data) = .error (.parseError "Unknown token 'CloseBrace'") :=
  ⟨rfl, rfl⟩

/-- C5 counterexample: the claim states that when Vec::from_json fails,
the output vector is not left holding a partially decoded prefix.  On
the code, decoding [1, null] into a Vec of floats fails on the second
element and leaves the out-vector (previously holding one stale entry,
which the call clears) holding exactly the decoded first element. -/
theorem c5_partial_prefix_left :
    vec_from_json ⟨false, ['0']⟩ f32_from_json
        (Value.array [Value.number ⟨false, ['1']⟩, Value.null])
        [⟨false, ['9']⟩] =
      (Except.error DecodeError.mk, [⟨false, ['1']⟩]) :=
  rfl

/-- C5 (amended): sequence decoding fails with DecodeError as soon as
an element fails and the Ok path preserves order, but the &mut output
vector is left cleared and holding the successfully decoded prefix of
elements preceding the failure, not its previous contents. -/
theorem c5_vec_decode_behavior {τ : Type} (dflt : τ) (fj : FromJson τ)
    (xs : List Value) (res : List τ) :
    vec_from_json dflt fj (Value.array xs) res =
      ((if (decodeElems fj dflt xs).2 then Except.ok () else Except.error .mk),
        (decodeElems fj dflt xs).1) := by
  simp [vec_from_json, as_array, vec_loop_spec]

/-- C6: the decode entry point (modelled from the spec, its definition
not being among the provided sources) composes parse with the
decode-into capability and reports both failure kinds through the
unified JSONError: a ParseError surfaces as JSONError.parseError, a
DecodeError as JSONError.decodeError, and on the success path the
decoded value is returned. -/
theorem c6_decode_composes {τ : Type} (fj : FromJson τ) (dflt : τ)
    (text : List Char) :
    (∀ m, parse text = .error (.parseError m) →
        decode fj dflt text = .jerr (.parseError m)) ∧
    (∀ v r, parse text = .ok v → fj v dflt = (.ok (), r) →
        decode fj dflt text = .ok r) ∧
    (∀ v r, parse text = .ok v → fj v dflt = (.error .mk, r) →
        decode fj dflt text = .jerr .decodeError) := by
  refine ⟨?_, ?_, ?_⟩
  · intro m hp
    simp [decode, hp]
  · intro v r hp hf
    simp [decode, hp, hf]
  · intro v r hp hf
    simp [decode, hp, hf]

/-- C6 witness: decoding the text "1" into a float succeeds through the
composed entry point. -/
theorem c6_decode_composes_witness :
    decode f32_from_json ⟨false, ['0']⟩ ("1".data) = .ok ⟨false, ['1']⟩ :=
  (c6_decode_composes f32_from_json ⟨false, ['0']⟩ ("1".data)).2.1
    (.number ⟨false, ['1']⟩) ⟨false, ['1']⟩ rfl rfl

/-- C7: after the top-level value is parsed, parse accepts the input
exactly when the remaining content is all whitespace (space, tab, CR,
LF); any remaining non-whitespace content yields a ParseError. -/
theorem c7_trailing_content (s : List Char) (v : Value) (r : List Char)
    (h : parse_ (s.length + 1) .val s = .ok (v, r)) :
    ((∀ c ∈ r, is_ws c = true) → parse s = .ok v) ∧
    ((∃ c ∈ r, is_ws c = false) → ∃ m, parse s = .error (.parseError m)) := by
  constructor
  · intro hw
    have h0 : skip_whitespace r = [] := (skip_whitespace_eq_nil r).mpr hw
    simp [parse, h, h0]
  · rintro ⟨c, hc, hcw⟩
    have h0 : skip_whitespace r ≠ [] := by
      intro h0
      have hall := (skip_whitespace_eq_nil r).mp h0 c hc
      rw [hcw] at hall
      exact Bool.noConfusion hall
    cases hsw : skip_whitespace r with
    | nil => exact absurd hsw h0
    | cons a t =>
      refine ⟨"Extra goop at the end of the file: " ++ String.mk (a :: t), ?_⟩
      simp [parse, h, hsw]

/-- C7 witness: "null " (trailing whitespace) parses to Null, while
"null x" (trailing non-whitespace) is rejected with a ParseError. -/
theorem c7_trailing_content_witness :
    parse ("null ".data) = .ok .null ∧
    (∃ m, parse ("null x".data) = .error (.parseError m)) := by
  constructor
  · exact (c7_trailing_content ("null ".data) .null [] rfl).1
      (by intro c hc; simp at hc)
  · exact (c7_trailing_content ("null x".data) .null ['x'] rfl).2
      ⟨'x', by simp, rfl⟩

/-- C8: every object a successful parse produces comes from the
OpenBrace branch, and equals the HashMap::insert fold over `obj_pairs`
of the input after the brace — the deterministic sequence of key/value
pairs as they occur in the text, in textual order.  Hence each key
occurs at most once in the map and is mapped to the value of its last
occurrence in the text (`lastAssoc` of that sequence).  Concretely, on
the duplicate-key text the pair sequence is [("a", true), ("a", false)]
and the parsed object maps "a" to the later value. -/
theorem c8_duplicate_keys_last_wins :
    (∀ (s : List Char) (m : List (String × Value)),
        parse s = .ok (.object m) →
        ∃ l1 ps r,
          token s = .ok (.openBrace, l1) ∧
          obj_pairs s.length l1 = .ok (ps, r) ∧
          m = insertAll [] ps ∧
          (∀ k, hashmap_get m k = lastAssoc ps k) ∧
          (m.map Prod.fst).Nodup) ∧
    obj_pairs 23 ("\"a\": true, \"a\": false\x7d".data) =
      .ok ([("a", Value.boolean true), ("a", Value.boolean false)], []) ∧
    parse ("\x7b\"a\": true, \"a\": false\x7d".data) =
      .ok (.object [("a", Value.boolean false)]) := by
  refine ⟨?_, rfl, rfl⟩
  intro s m h
  unfold parse at h
  cases h1 : parse_ (s.length + 1) .val s with
  | error e => rw [h1] at h; simp at h
  | ok p =>
    rw [h1] at h
    obtain ⟨v, rest⟩ := p
    simp only at h
    cases hsw : skip_whitespace rest with
    | nil =>
      rw [hsw] at h
      simp only [Except.ok.injEq] at h
      subst h
      obtain ⟨l1, ps, htok, hpairs, hins⟩ := val_object_pairs s.length s m rest h1
      refine ⟨l1, ps, rest, htok, hpairs, hins, ?_, ?_⟩
      · intro k
        rw [hins, get_insertAll]
        cases hl : lastAssoc ps k <;> simp [hashmap_get]
      · rw [hins]
        exact nodup_insertAll ps [] (by simp)
    | cons a t => rw [hsw] at h; simp at h

/-- C8 witness: instantiating the general statement at the
duplicate-key object text; the extracted pair sequence is pinned by
`obj_pairs` to the textual order. -/
theorem c8_duplicate_keys_last_wins_witness :
    ∃ l1 ps r,
      token ("\x7b\"a\": true, \"a\": false\x7d".data) = .ok (.openBrace, l1) ∧
      obj_pairs ("\x7b\"a\": true, \"a\": false\x7d".data).length l1 = .ok (ps, r) ∧
      [("a", Value.boolean false)] = insertAll [] ps ∧
      (∀ k, hashmap_get [("a", Value.boolean false)] k = lastAssoc ps k) ∧
      ([("a", Value.boolean false)].map Prod.fst).Nodup :=
  c8_duplicate_keys_last_wins.1 ("\x7b\"a\": true, \"a\": false\x7d".data)
    [("a", Value.boolean false)] rfl

/-- C9: extract_field on a missing key fails with DecodeError and on a
present key decodes the found value into the target, while
extract_optional_field on the same missing key succeeds leaving the
target exactly as given. -/
theorem c9_field_extraction {τ : Type} (fj : FromJson τ)
    (o : List (String × Value)) (key : String) (res : τ) :
    (hashmap_get o key = none →
        extract_field fj o key res = (Except.error DecodeError.mk, res) ∧
        extract_optional_field fj o key res = (Except.ok (), res)) ∧
    (∀ v, hashmap_get o key = some v →
        extract_field fj o key res = fj v res ∧
        extract_optional_field fj o key res = fj v res) := by
  constructor
  · intro h
    constructor <;> simp [extract_field, extract_optional_field, h]
  · intro v h
    constructor <;> simp [extract_field, extract_optional_field, h]

/-- C9 witness: looking up the absent key "y". -/
theorem c9_field_extraction_witness :
    extract_field f32_from_json [("x", Value.null)] "y" ⟨false, ['0']⟩ =
        (Except.error DecodeError.mk, ⟨false, ['0']⟩) ∧
    extract_optional_field f32_from_json [("x", Value.null)] "y" ⟨false, ['0']⟩ =
        (Except.ok (), ⟨false, ['0']⟩) :=
  (c9_field_extraction f32_from_json [("x", Value.null)] "y" ⟨false, ['0']⟩).1 rfl

/-- C10: a raw control character other than line feed between the
quotes of a string literal is accepted and preserved verbatim in the
resulting Value::String, while a raw line feed is rejected with a
ParseError. -/
theorem c10_raw_control_chars :
    (∀ b : Char, b.toNat < 32 → b ≠ '\n' →
        parse ['"', b, '"'] = .ok (.string (String.mk [b]))) ∧
    parse ['"', '\n', '"'] =
      .error (.parseError "Unexpected newline while parsing string literal") := by
  constructor
  · intro b hlt hne
    have h1 : b ≠ '\\' := by
      intro h
      subst h
      exact absurd hlt (by decide)
    have h2 : b ≠ '"' := by
      intro h
      subst h
      exact absurd hlt (by decide)
    have htok : token ['"', b, '"'] = .ok (.string (String.mk [b]), []) := by
      simp [token, token_body, skip_whitespace, is_ws, is_digit,
        is_identifier_start, string_extent, parse_string, push_char,
        hne, h1, h2]
    unfold parse
    rw [parse_, htok]
    rfl
  · rfl

/-- C10 witness: a raw horizontal tab and a raw carriage return inside
a string literal are accepted and preserved. -/
theorem c10_raw_control_chars_witness :
    parse ['"', '\t', '"'] = .ok (.string (String.mk ['\t'])) ∧
    parse ['"', '\r', '"'] = .ok (.string (String.mk ['\r'])) :=
  ⟨c10_raw_control_chars.1 '\t' (by decide) (by decide),
   c10_raw_control_chars.1 '\r' (by decide) (by decide)⟩

end FortunateJson
